import Mathlib

/-!
Verification development for the Live Eval Chess server.

The JavaScript sources are shallowly embedded here: every pure helper of the
server becomes a Lean function over exact rationals, strings and lists, and
the stateful handlers become explicit state-passing functions.  The main
snapshot is src/unnamed/part_000; the socket.io variant lives in
src/server.js and the older snapshot in src/unnamed/part_002.
-/

namespace ChessServer

/-! ## Score model (StockfishEngine, src/unnamed/part_000)

An engine score object is `{ type: "cp" | "mate", value }`, or absent, or of
an unrecognized type.  JavaScript numbers that reach these helpers are
integers (regex-parsed), so the value is an `Int`. -/

inductive ScoreObj : Type where
  | cp (value : Int)
  | mate (value : Int)
  | other
deriving DecidableEq

/-- JavaScript Math.round: floor of the argument plus one half. -/
def jsRound (x : ℚ) : Int := ⌊x + 1 / 2⌋

/-- Math.max(-9.9, Math.min(9.9, x)). -/
def clamp99 (x : ℚ) : ℚ := max (-(99 / 10)) (min (99 / 10) x)

/-- Math.round(x * 10) / 10 — round to one decimal place. -/
def round1 (x : ℚ) : ℚ := ((jsRound (x * 10) : ℤ) : ℚ) / 10

/-- JavaScript String.split(" ") on the character list of a string: the empty
string yields one empty field, separators at the ends yield empty fields. -/
def splitOnSpace : List Char → List (List Char)
  | [] => [[]]
  | c :: rest =>
      match splitOnSpace rest with
      | [] => [[]]
      | f :: fs => if c = ' ' then [] :: f :: fs else (c :: f) :: fs

/-- The fields of a FEN string, as in `(fen || "").split(" ")`. -/
def fenFields (fen : String) : List String :=
  (splitOnSpace fen.data).map (fun cs => String.mk cs)

/-- The side-to-move field of a FEN, `parts[1] || "w"`, defaulting to white. -/
def stmOfFen (fen : String) : String :=
  let t := (fenFields fen).getD 1 ""
  if t = "" then "w" else t

/-- The material table `{ p: 1, n: 3, b: 3, r: 5, q: 9 }`; every other
character (kings included) has no entry and is skipped by the fold. -/
def pieceVal : Char → Int
  | 'p' => 1
  | 'n' => 3
  | 'b' => 3
  | 'r' => 5
  | 'q' => 9
  | _ => 0

/-- The loop body of materialEvalFromFen: skip rank separators and digit runs,
subtract the value of lowercase (black) pieces, add uppercase (white) ones. -/
def materialScoreRaw (boardPart : List Char) : Int :=
  boardPart.foldl
    (fun score c =>
      if c = '/' ∨ ('1' ≤ c ∧ c ≤ '8') then score
      else
        let lower := c.toLower
        if pieceVal lower = 0 then score
        else if c = lower then score - pieceVal lower
        else score + pieceVal lower)
    0

/-- materialEvalFromFen (src/unnamed/part_000 lines 70-84): sum the material
of the board field, clamp to [-9.9, 9.9], round to one decimal. -/
def materialEvalFromFen (fen : String) : ℚ :=
  let boardPart := (fenFields fen).getD 0 ""
  round1 (clamp99 ((materialScoreRaw boardPart.data : ℤ) : ℚ))

/-- scoreToPawnsWhitePOV (src/unnamed/part_000 lines 217-237): convert an
engine score to a white-point-of-view pawn value.  A missing or unrecognized
score object falls back to the material evaluation; centipawns divide by 100;
mate maps to a signed 99; the value is negated when the side to move is
black; clamping and rounding happen only when the magnitude is below 90. -/
def scoreToPawnsWhitePOV (scoreObj : Option ScoreObj) (fen : String) : ℚ :=
  match scoreObj with
  | none => materialEvalFromFen fen
  | some sObj =>
      let stm := stmOfFen fen
      match sObj with
      | ScoreObj.cp v =>
          let pawns : ℚ := (v : ℚ) / 100
          let pawns2 := if stm = "b" then -pawns else pawns
          if |pawns2| < 90 then round1 (clamp99 pawns2) else pawns2
      | ScoreObj.mate v =>
          let pawns : ℚ := (if 0 ≤ v then 1 else -1) * 99
          let pawns2 := if stm = "b" then -pawns else pawns
          if |pawns2| < 90 then round1 (clamp99 pawns2) else pawns2
      | ScoreObj.other => materialEvalFromFen fen

/-- The score-normalization contract, written from the amended wording of the
specification: centipawn over 100; forced mate to the sentinel 99 carrying the
sign of the mate count; negation when the FEN side to move is the second
player; clamping to [-9.9, 9.9] with one-decimal rounding only for results of
magnitude below ninety pawns. -/
def specScoreNorm (scoreObj : Option ScoreObj) (fen : String) : ℚ :=
  match scoreObj with
  | some (ScoreObj.cp v) =>
      let raw : ℚ := (v : ℚ) / 100
      let absScore := if stmOfFen fen = "b" then -raw else raw
      if |absScore| < 90 then round1 (clamp99 absScore) else absScore
  | some (ScoreObj.mate v) =>
      let sentinel : ℚ := if 0 ≤ v then 99 else -99
      if stmOfFen fen = "b" then -sentinel else sentinel
  | some ScoreObj.other => materialEvalFromFen fen
  | none => materialEvalFromFen fen

/-- The position after 1.e4, black to move. -/
def fenAfterE4 : String :=
  "rnbqkbnr/pppppppp/8/8/4P3/8/PPPP1PPP/RNBQKBNR b KQkq - 0 1"

/-- The initial position, white to move. -/
def fenInitial : String :=
  "rnbqkbnr/pppppppp/8/8/8/8/PPPPPPPP/RNBQKBNR w KQkq - 0 1"

/-! ## Evaluation staleness guard (updateEvalAndBroadcast, part_000 388-400)

Only the part after the await matters for the staleness claims: the resolved
score and the originating ply are compared against the room fields. -/

/-- The eval-carrying fields of a room in src/unnamed/part_000. -/
structure RoomEval : Type where
  lastEval : ℚ
  lastEvalPly : Int
deriving DecidableEq

/-- The resolution step of updateEvalAndBroadcast: a completed evaluation for
ply `ply` with score `score` is discarded when `ply < lastEvalPly`; otherwise
the room fields are overwritten and an eval event `(score, ply)` is
broadcast (returned as `some`). -/
def updateEvalResolve (room : RoomEval) (ply : Int) (score : ℚ) :
    RoomEval × Option (ℚ × Int) :=
  if ply < room.lastEvalPly then (room, none)
  else ({ lastEval := score, lastEvalPly := ply }, some (score, ply))

/-- The restart handler (part_000 571-579): reset the game and zero both
`lastEval` and `lastEvalPly`. -/
def restartRoom (_room : RoomEval) : RoomEval :=
  { lastEval := 0, lastEvalPly := 0 }

/-! ## Single-flight job queue (evaluateFenQueued, part_000 239-315)

The synchronous skeleton of the engine job queue: `queue` is a JavaScript
array of jobs (here, their FEN snapshots), `busy` the single-flight flag.
`_runNext` starts the head job when the engine is idle. -/

/-- The queue state of the StockfishEngine (available engine). -/
structure EngState : Type where
  queue : List String
  busy : Bool
deriving DecidableEq

def engInit : EngState := { queue := [], busy := false }

/-- The _runNext step on an available engine: return when busy or when the queue is
empty, otherwise mark busy and send the head job to the subprocess. -/
def runNextStart (s : EngState) : EngState :=
  if s.busy then s
  else if s.queue = [] then s
  else { s with busy := true }

/-- The submission step of evaluateFenQueued on an available engine:
`this.queue.push(job); this._runNext()`. -/
def evaluateFenSubmit (s : EngState) (fen : String) : EngState :=
  runNextStart { s with queue := s.queue ++ [fen] }

/-- The bestmove completion step: shift the finished head job, clear `busy`,
run the next queued job. -/
def completeJob (s : EngState) : EngState :=
  runNextStart { queue := s.queue.drop 1, busy := false }

/-- Engine queue states reachable from the idle empty engine by submissions
and job completions. -/
inductive EngReachable : EngState → Prop where
  | init : EngReachable engInit
  | submit (s : EngState) (fen : String) :
      EngReachable s → EngReachable (evaluateFenSubmit s fen)
  | complete (s : EngState) :
      EngReachable s → EngReachable (completeJob s)

/-- The unstarted (pending) submissions: everything behind the executing head
while busy, the whole queue otherwise. -/
def pendingOf (s : EngState) : List String :=
  if s.busy then s.queue.drop 1 else s.queue

/-! ## Room-level eval queue (queueEval, src/server.js 441-458)

The websocket variant in src/server.js keeps one engine per room with a
boolean busy flag and a single pending FEN slot. -/

/-- The engine fields of a room in src/server.js. -/
structure RoomEng : Type where
  engine : Bool
  engineBusy : Bool
  pendingEvalFen : Option String
deriving DecidableEq

/-- startEngine: spawn the subprocess unless one is already attached. -/
def startEngine (r : RoomEng) : RoomEng :=
  if r.engine then r else { r with engine := true }

/-- queueEval: while a search is executing, remember only the latest position
in the single pending slot; otherwise start a fresh search. -/
def queueEval (r : RoomEng) (fen : String) : RoomEng :=
  let r := startEngine r
  if ¬ r.engine then r
  else if r.engineBusy then { r with pendingEvalFen := some fen }
  else { r with engineBusy := true }

/-! ## Fallback evaluation and failure outcomes -/

/-- A job promise settles either by resolving with a numeric score or by
being rejected. -/
inductive JobOutcome : Type where
  | resolved (score : ℚ)
  | rejected
deriving DecidableEq

def isRejected : JobOutcome → Bool
  | JobOutcome.rejected => true
  | JobOutcome.resolved _ => false

/-- A queued evaluation job: the FEN snapshot and the best score seen so
far from info lines. -/
structure EvalJob : Type where
  fen : String
  score : Option ScoreObj
deriving DecidableEq

/-- The unavailable-engine early return of evaluateFenQueued in part_000:
`Promise.resolve(materialEvalFromFen(fen))`.  The second argument models the
ambient Math.random source, which this path never consults. -/
def evaluateFenUnavailable (fen : String) (_rand : ℚ) : ℚ :=
  materialEvalFromFen fen

/-- The fallback of the part_002 snapshot, `_fakeEvalFromFen` (lines
264-269): `Math.round((Math.random() * 3 - 1.5) * 10) / 10`, with the random
draw in [0, 1) made an explicit argument. -/
def fakeEvalFromFen (_fen : String) (rand : ℚ) : ℚ :=
  round1 (rand * 3 - 3 / 2)

/-- The unavailable-engine early return of evaluateFenQueued in part_002:
`Promise.resolve(this._fakeEvalFromFen(fen))`. -/
def evaluateFenUnavailable002 (fen : String) (rand : ℚ) : ℚ :=
  fakeEvalFromFen fen rand

/-- The timeout settlement of a job in part_000: resolve with the best score
observed so far, or the material fallback when none arrived. -/
def timeoutOutcome (j : EvalJob) : JobOutcome :=
  JobOutcome.resolved (scoreToPawnsWhitePOV j.score j.fen)

/-- The bestmove settlement of a job in part_000. -/
def bestmoveOutcome (j : EvalJob) : JobOutcome :=
  JobOutcome.resolved (scoreToPawnsWhitePOV j.score j.fen)

/-- The unavailable-engine settlement in part_000. -/
def unavailableOutcome (fen : String) : JobOutcome :=
  JobOutcome.resolved (materialEvalFromFen fen)

/-- The _failAll routine (part_000 lines 207-215), run on subprocess error or exit:
every currently queued job has its promise rejected. -/
def failAllOutcomes (queue : List EvalJob) : List JobOutcome :=
  queue.map (fun _ => JobOutcome.rejected)

/-! ## Move handling (canMove and the ws move handler, part_000)

The Rule Engine (chess.js) is an external collaborator: the handler is
parameterized by its board type `G`, its side-to-move accessor and its move
function, which returns the new board on acceptance and nothing on refusal. -/

/-- The connection role `ws._role`. -/
inductive Role : Type where
  | white
  | black
  | spectator
deriving DecidableEq

/-- The chess.js side to move, `game.turn()`. -/
inductive Turn : Type where
  | w
  | b
deriving DecidableEq

/-- canMove (part_000 lines 381-386): the sender may move only when it holds
the seat whose color is to move. -/
def canMove (turn : Turn) (role : Role) : Bool :=
  match role, turn with
  | Role.white, Turn.w => true
  | Role.black, Turn.b => true
  | _, _ => false

/-- An incoming move message; `promotion` is absent or a string (the empty
string is falsy in JavaScript). -/
structure MoveMsg : Type where
  moveFrom : String
  moveTo : String
  promotion : Option String
deriving DecidableEq

/-- Evaluation of `v || d` on an optional JavaScript string: absent and empty both fall
back to the default. -/
def jsOrDefault (v : Option String) (d : String) : String :=
  match v with
  | none => d
  | some s => if s = "" then d else s

/-- The argument object passed to `room.game.move`. -/
structure MoveArg : Type where
  moveFrom : String
  moveTo : String
  promotion : String
deriving DecidableEq

/-- The observable reply of the move handler: an illegal event sent only to
the requesting connection, or a state broadcast to the room. -/
inductive MoveResp : Type where
  | illegalToSender
  | broadcastState
deriving DecidableEq

/-- The ws "move" handler (part_000 lines 545-567): reject out-of-turn or
unseated senders, build the move argument with promotion defaulting to "q",
let the Rule Engine decide, and either reject to the sender (board
unchanged) or commit the new board and broadcast. -/
def moveHandler {G : Type} (turnOf : G → Turn) (ruleMove : G → MoveArg → Option G)
    (g : G) (role : Role) (msg : MoveMsg) : G × MoveResp :=
  if canMove (turnOf g) role then
    match ruleMove g { moveFrom := msg.moveFrom, moveTo := msg.moveTo,
                       promotion := jsOrDefault msg.promotion "q" } with
    | none => (g, MoveResp.illegalToSender)
    | some g2 => (g2, MoveResp.broadcastState)
  else (g, MoveResp.illegalToSender)

/-! ## Matchmaking FIFO (tryMatchmake and queue:join, src/server.js 145-204)

The queue holds socket ids.  `tryMatchmake` first drops stale ids, then
pairs the two oldest tickets and returns (the JavaScript loop exits after
one successful pairing). -/

/-- tryMatchmake: filter the queue by liveness, dequeue the two oldest, and
report the produced pair, if any. -/
def tryMatchmake (alive : Nat → Bool) (queue : List Nat) :
    List Nat × Option (Nat × Nat) :=
  match queue.filter alive with
  | a :: b :: rest => (rest, some (a, b))
  | q => (q, none)

/-- The queue:join handler for a connection not currently in a room: already
queued ids are ignored, otherwise the id is appended and matchmaking runs. -/
def queueJoin (alive : Nat → Bool) (queue : List Nat) (sid : Nat) :
    List Nat × Option (Nat × Nat) :=
  if sid ∈ queue then (queue, none)
  else tryMatchmake alive (queue ++ [sid])

/-- Run a sequence of queue:join requests, collecting the produced pairs in
order. -/
def runJoins (alive : Nat → Bool) (queue : List Nat) :
    List Nat → List Nat × List (Nat × Nat)
  | [] => (queue, [])
  | sid :: rest =>
      let step := queueJoin alive queue sid
      let tail := runJoins alive step.1 rest
      (tail.1, step.2.toList ++ tail.2)

/-! ## cancelQueue and leave (part_000)

`waiting` is the single-slot matchmaking queue of part_000; `leaveRoom`
detaches a connection from its room, clears its seat, and deletes the room
once empty. -/

/-- clearWaitingIf (part_000 lines 406-408). -/
def clearWaitingIf (waiting : Option Nat) (ws : Nat) : Option Nat :=
  match waiting with
  | some w => if w = ws then none else waiting
  | none => none

/-- A room of part_000 as touched by leaveRoom: its client set and seats. -/
structure Room000 : Type where
  clients : Finset Nat
  seatW : Option Nat
  seatB : Option Nat
deriving DecidableEq

/-- The registry and the per-connection fields of the acting connection. -/
structure World : Type where
  rooms : List (String × Room000)
  wsRoom : Option String
  wsRole : Role
deriving DecidableEq

def lookupRoom (rs : List (String × Room000)) (code : String) : Option Room000 :=
  (rs.find? (fun p => p.1 = code)).map Prod.snd

def updateRoomIn (rs : List (String × Room000)) (code : String) (r : Room000) :
    List (String × Room000) :=
  rs.map (fun p => if p.1 = code then (code, r) else p)

def deleteRoom (rs : List (String × Room000)) (code : String) :
    List (String × Room000) :=
  rs.filter (fun p => p.1 ≠ code)

/-- leaveRoom (part_000 lines 344-358): nothing happens without a room
back-reference; otherwise the connection is removed from the client set and
its seats, the back-reference and role are reset, and an empty room is
deleted from the registry. -/
def leaveRoom (w : World) (ws : Nat) : World :=
  match w.wsRoom with
  | none => w
  | some code =>
      match lookupRoom w.rooms code with
      | none => { w with wsRoom := none, wsRole := Role.spectator }
      | some r =>
          let r2 : Room000 :=
            { clients := r.clients.erase ws
              seatW := if r.seatW = some ws then none else r.seatW
              seatB := if r.seatB = some ws then none else r.seatB }
          let rs :=
            if r2.clients = ∅ then deleteRoom w.rooms code
            else updateRoomIn w.rooms code r2
          { rooms := rs, wsRoom := none, wsRole := Role.spectator }

/-! ## Claim theorems -/

/-- Claim C1, as stated, is false at a concrete input: the centipawn score
9000 with white to move normalizes to 90 pawns, which the code returns
without the claimed clamp to [-9.9, 9.9] (the clamp applies only below a
magnitude of 90). -/
theorem C1_counterexample :
    scoreToPawnsWhitePOV (some (ScoreObj.cp 9000)) fenInitial = 90 ∧
    ¬ ((90 : ℚ) ≤ 99 / 10) := by
  constructor
  · have hw : stmOfFen fenInitial = "w" := by decide
    simp only [scoreToPawnsWhitePOV, hw, show (("w" : String) = "b") = False by simp, if_false]
    norm_num
  · norm_num

/-- Claim C1 (amended): score normalization divides centipawns by 100, maps
forced mate to the sentinel 99 carrying the sign of the mate count, negates
the result when the FEN side to move is black, and clamps to [-9.9, 9.9]
with one-decimal rounding exactly when the magnitude is below 90 pawns;
centipawn +250 with black to move yields -2.5 and centipawn -120 with white
to move yields -1.2. -/
theorem C1_theorem :
    (∀ (scoreObj : Option ScoreObj) (fen : String),
        scoreToPawnsWhitePOV scoreObj fen = specScoreNorm scoreObj fen) ∧
    scoreToPawnsWhitePOV (some (ScoreObj.cp 250)) fenAfterE4 = -(5 / 2) ∧
    scoreToPawnsWhitePOV (some (ScoreObj.cp (-120))) fenInitial = -(6 / 5) := by
  refine ⟨?_, ?_, ?_⟩
  · intro scoreObj fen
    have h99n : ¬ (|(-99 : ℚ)| < 90) := by
      rw [abs_neg, abs_of_nonneg (by norm_num : (0 : ℚ) ≤ 99)]; norm_num
    have h99p : ¬ (|(99 : ℚ)| < 90) := by
      rw [abs_of_nonneg (by norm_num : (0 : ℚ) ≤ 99)]; norm_num
    match scoreObj with
    | none => rfl
    | some ScoreObj.other => rfl
    | some (ScoreObj.cp v) => rfl
    | some (ScoreObj.mate v) =>
        by_cases hv : 0 ≤ v <;> by_cases hb : stmOfFen fen = "b" <;>
          simp [scoreToPawnsWhitePOV, specScoreNorm, hv, hb, h99n, h99p] <;>
          norm_num
  · have hb : stmOfFen fenAfterE4 = "b" := by decide
    simp only [scoreToPawnsWhitePOV, hb]
    norm_num [round1, clamp99, jsRound]
  · have hw : stmOfFen fenInitial = "w" := by decide
    simp only [scoreToPawnsWhitePOV, hw, show (("w" : String) = "b") = False by simp, if_false]
    norm_num [round1, clamp99, jsRound]

/-- Claim C2: a completed evaluation whose originating ply is below the
last broadcast eval ply is discarded without touching the room, and an eval
event is emitted only when the originating ply is at least the stored
one, carrying exactly the resolved score and ply. -/
theorem C2_theorem :
    (∀ (room : RoomEval) (ply : Int) (score : ℚ),
        ply < room.lastEvalPly → updateEvalResolve room ply score = (room, none)) ∧
    (∀ (room : RoomEval) (ply : Int) (score : ℚ) (ev : ℚ × Int),
        (updateEvalResolve room ply score).2 = some ev →
          room.lastEvalPly ≤ ply ∧ ev = (score, ply)) := by
  constructor
  · intro room ply score h
    simp [updateEvalResolve, h]
  · intro room ply score ev h
    by_cases hlt : ply < room.lastEvalPly
    · simp [updateEvalResolve, hlt] at h
    · refine ⟨le_of_not_lt hlt, ?_⟩
      simp [updateEvalResolve, hlt] at h
      exact h.symm

/-- Witness for C2: an evaluation for ply 4 arriving when ply 6 was already
broadcast is dropped with the room untouched, and a broadcast for ply 7
implies 7 was at least the stored ply. -/
theorem C2_witness :
    updateEvalResolve { lastEval := 0, lastEvalPly := 6 } 4 (1 / 2) =
      ({ lastEval := 0, lastEvalPly := 6 }, none) ∧
    ((6 : Int) ≤ 7 ∧ ((3 : ℚ), (7 : Int)) = ((3 : ℚ), (7 : Int))) :=
  ⟨C2_theorem.1 { lastEval := 0, lastEvalPly := 6 } 4 (1 / 2) (by decide),
   C2_theorem.2 { lastEval := 0, lastEvalPly := 6 } 7 3 (3, 7) (by decide)⟩

/-- Claim C3, as stated, is false at a concrete input: after submitting
three positions to an idle available engine in part_000, the two later
submissions both sit unstarted behind the executing head — pending jobs
accumulate in a FIFO instead of coalescing into a single slot. -/
theorem C3_counterexample :
    pendingOf (evaluateFenSubmit (evaluateFenSubmit (evaluateFenSubmit engInit "f1") "f2") "f3") =
      ["f2", "f3"] ∧
    ¬ ((pendingOf (evaluateFenSubmit (evaluateFenSubmit
        (evaluateFenSubmit engInit "f1") "f2") "f3")).length ≤ 1) := by
  constructor <;> decide

/-- Claim C3 (amended): at most one job executes at a time — a reachable
engine is busy exactly when its queue is nonempty, and only the queue head
is started.  In the part_000 StockfishEngine a submission during a running
job is appended behind all pending jobs (FIFO, no coalescing); in the
src/server.js room engine, queueEval overwrites the single pending slot
with the latest position. -/
theorem C3_theorem :
    (∀ s : EngState, EngReachable s → (s.busy = true ↔ s.queue ≠ [])) ∧
    (∀ (s : EngState) (fen : String), s.busy = true →
        evaluateFenSubmit s fen = { queue := s.queue ++ [fen], busy := true }) ∧
    (∀ (r : RoomEng) (fen : String), r.engineBusy = true →
        (queueEval r fen).pendingEvalFen = some fen ∧
        (queueEval r fen).engineBusy = true) := by
  refine ⟨?_, ?_, ?_⟩
  · intro s h
    induction h with
    | init => simp [engInit]
    | submit s fen hs ih =>
        have hq : s.queue ++ [fen] ≠ [] := by simp
        cases hb : s.busy <;> simp [evaluateFenSubmit, runNextStart, hb, hq]
    | complete s hs ih =>
        by_cases hq : s.queue.tail = [] <;>
          simp [completeJob, runNextStart, List.drop_one, hq]
  · intro s fen h
    simp [evaluateFenSubmit, runNextStart, h]
  · intro r fen h
    cases he : r.engine <;> simp [queueEval, startEngine, he, h]

/-- Witness for C3: a first submission reaches a busy-iff-nonempty state, a
submission during a running job appends behind it, and queueEval during a
search fills the pending slot with the submitted position. -/
theorem C3_witness :
    ((evaluateFenSubmit engInit "a").busy = true ↔
      (evaluateFenSubmit engInit "a").queue ≠ []) ∧
    evaluateFenSubmit { queue := ["a"], busy := true } "b" =
      { queue := ["a", "b"], busy := true } ∧
    ((queueEval { engine := true, engineBusy := true, pendingEvalFen := none } "c").pendingEvalFen =
        some "c" ∧
      (queueEval { engine := true, engineBusy := true, pendingEvalFen := none } "c").engineBusy =
        true) :=
  ⟨C3_theorem.1 (evaluateFenSubmit engInit "a")
      (EngReachable.submit engInit "a" EngReachable.init),
   C3_theorem.2.1 { queue := ["a"], busy := true } "b" rfl,
   C3_theorem.2.2 { engine := true, engineBusy := true, pendingEvalFen := none } "c" rfl⟩

/-- Claim C4, as stated, is false on the part_002 snapshot: with the engine
unavailable, two evaluate calls on the identical FEN return -1.5 and 0.0
for two admissible draws of the random source, so the fallback is not a
deterministic function of the board serialization alone. -/
theorem C4_counterexample :
    evaluateFenUnavailable002 fenInitial 0 = -(3 / 2) ∧
    evaluateFenUnavailable002 fenInitial (1 / 2) = 0 ∧
    evaluateFenUnavailable002 fenInitial 0 ≠ evaluateFenUnavailable002 fenInitial (1 / 2) := by
  have h1 : evaluateFenUnavailable002 fenInitial 0 = -(3 / 2) := by
    norm_num [evaluateFenUnavailable002, fakeEvalFromFen, round1, jsRound]
  have h2 : evaluateFenUnavailable002 fenInitial (1 / 2) = 0 := by
    norm_num [evaluateFenUnavailable002, fakeEvalFromFen, round1, jsRound]
  refine ⟨h1, h2, ?_⟩
  rw [h1, h2]
  norm_num

/-- Bounds of the clamped and rounded material fallback. -/
theorem round1_clamp99_bounds (x : ℚ) :
    -(99 / 10) ≤ round1 (clamp99 x) ∧ round1 (clamp99 x) ≤ 99 / 10 := by
  have h1 : -(99 / 10) ≤ clamp99 x := le_max_left _ _
  have h2 : clamp99 x ≤ 99 / 10 := by
    apply max_le
    · norm_num
    · exact min_le_left _ _
  have hlow : (-99 : ℤ) ≤ jsRound (clamp99 x * 10) := by
    rw [jsRound]
    apply Int.le_floor.mpr
    push_cast
    nlinarith
  have hhigh : jsRound (clamp99 x * 10) ≤ 99 := by
    rw [jsRound]
    have hfl : ((⌊clamp99 x * 10 + 1 / 2⌋ : ℤ) : ℚ) ≤ clamp99 x * 10 + 1 / 2 :=
      Int.floor_le _
    have hlt : ((⌊clamp99 x * 10 + 1 / 2⌋ : ℤ) : ℚ) < 100 := by nlinarith
    have hint : (⌊clamp99 x * 10 + 1 / 2⌋ : ℤ) < 100 := by exact_mod_cast hlt
    omega
  have hlowq : (-99 : ℚ) ≤ ((jsRound (clamp99 x * 10) : ℤ) : ℚ) := by
    exact_mod_cast hlow
  have hhighq : ((jsRound (clamp99 x * 10) : ℤ) : ℚ) ≤ 99 := by
    exact_mod_cast hhigh
  constructor <;> rw [round1] <;> linarith

/-- Claim C4 (amended): in the part_000 snapshot the unavailable-engine path
of evaluate resolves with materialEvalFromFen, a function of the FEN alone —
the random source does not influence it — whose value always lies in
[-9.9, 9.9]; the part_002 snapshot instead resolves with the randomized
_fakeEvalFromFen, so only part_000 has a deterministic fallback. -/
theorem C4_theorem :
    (∀ (fen : String) (r1 r2 : ℚ),
        evaluateFenUnavailable fen r1 = evaluateFenUnavailable fen r2) ∧
    (∀ (fen : String) (r : ℚ),
        evaluateFenUnavailable fen r = materialEvalFromFen fen) ∧
    (∀ fen : String,
        -(99 / 10) ≤ materialEvalFromFen fen ∧ materialEvalFromFen fen ≤ 99 / 10) := by
  refine ⟨fun _ _ _ => rfl, fun _ _ => rfl, ?_⟩
  intro fen
  exact round1_clamp99_bounds _

/-- Claim C5, as stated, is false: when the subprocess errors or exits,
_failAll settles a concretely queued job by rejecting its promise, not by
resolving a numeric value. -/
theorem C5_counterexample :
    failAllOutcomes [{ fen := fenInitial, score := none }] = [JobOutcome.rejected] ∧
    isRejected ((failAllOutcomes [{ fen := fenInitial, score := none }]).getD 0
      (JobOutcome.resolved 0)) = true := by
  constructor <;> rfl

/-- Claim C5 (amended): the unavailable-engine path, the timeout path and
the bestmove path of evaluate all resolve with a numeric score, but
subprocess error or unexpected exit rejects the promise of every currently
queued job through _failAll; the room-level caller absorbs that rejection
with a catch fallback. -/
theorem C5_theorem :
    (∀ fen : String, isRejected (unavailableOutcome fen) = false) ∧
    (∀ j : EvalJob,
        isRejected (timeoutOutcome j) = false ∧ isRejected (bestmoveOutcome j) = false) ∧
    (∀ (queue : List EvalJob) (o : JobOutcome),
        o ∈ failAllOutcomes queue → o = JobOutcome.rejected) := by
  refine ⟨fun _ => rfl, fun _ => ⟨rfl, rfl⟩, ?_⟩
  intro queue o h
  simp only [failAllOutcomes] at h
  rcases List.mem_map.mp h with ⟨a, _, ha⟩
  exact ha.symm

/-- Witness for C5: concrete settlements — the fallback and timeout paths
resolve, and the one job queued when the engine dies is rejected. -/
theorem C5_witness :
    isRejected (unavailableOutcome fenInitial) = false ∧
    (isRejected (timeoutOutcome { fen := fenInitial, score := none }) = false ∧
      isRejected (bestmoveOutcome { fen := fenInitial, score := none }) = false) ∧
    JobOutcome.rejected = JobOutcome.rejected :=
  ⟨C5_theorem.1 fenInitial,
   C5_theorem.2.1 { fen := fenInitial, score := none },
   C5_theorem.2.2 [{ fen := fenInitial, score := none }] JobOutcome.rejected
      (by simp [failAllOutcomes])⟩

/-- Claim C6: a move is answered with an illegal event to the requesting
connection and an unchanged board unless the sender holds a seat matching
the side to move and the Rule Engine accepts the move; in particular, with
white to move every move from the black seat is rejected no matter what the
Rule Engine would say, and a Rule Engine refusal is likewise rejected. -/
theorem C6_theorem :
    (∀ (G : Type) (turnOf : G → Turn) (ruleMove : G → MoveArg → Option G)
        (g : G) (role : Role) (msg : MoveMsg) (g2 : G),
        moveHandler turnOf ruleMove g role msg = (g2, MoveResp.broadcastState) →
          role ≠ Role.spectator ∧ canMove (turnOf g) role = true ∧
          ruleMove g { moveFrom := msg.moveFrom, moveTo := msg.moveTo,
                       promotion := jsOrDefault msg.promotion "q" } = some g2) ∧
    (∀ (G : Type) (turnOf : G → Turn) (ruleMove : G → MoveArg → Option G)
        (g : G) (role : Role) (msg : MoveMsg),
        canMove (turnOf g) role = false →
          moveHandler turnOf ruleMove g role msg = (g, MoveResp.illegalToSender)) ∧
    (∀ (G : Type) (turnOf : G → Turn) (ruleMove : G → MoveArg → Option G)
        (g : G) (msg : MoveMsg),
        turnOf g = Turn.w →
          moveHandler turnOf ruleMove g Role.black msg = (g, MoveResp.illegalToSender)) ∧
    (∀ (G : Type) (turnOf : G → Turn) (ruleMove : G → MoveArg → Option G)
        (g : G) (role : Role) (msg : MoveMsg),
        ruleMove g { moveFrom := msg.moveFrom, moveTo := msg.moveTo,
                     promotion := jsOrDefault msg.promotion "q" } = none →
          moveHandler turnOf ruleMove g role msg = (g, MoveResp.illegalToSender)) := by
  refine ⟨?_, ?_, ?_, ?_⟩
  · intro G turnOf ruleMove g role msg g2 h
    cases hcm : canMove (turnOf g) role with
    | false => simp [moveHandler, hcm] at h
    | true =>
        cases hr : ruleMove g { moveFrom := msg.moveFrom, moveTo := msg.moveTo,
                                promotion := jsOrDefault msg.promotion "q" } with
        | none => simp [moveHandler, hcm, hr] at h
        | some gx =>
            have hmv : moveHandler turnOf ruleMove g role msg =
                (gx, MoveResp.broadcastState) := by
              simp [moveHandler, hcm, hr]
            rw [hmv] at h
            injection h with h1 _
            refine ⟨?_, rfl, ?_⟩
            · intro hrole
              subst hrole
              cases ht : turnOf g <;> simp [canMove, ht] at hcm
            · rw [h1]
  · intro G turnOf ruleMove g role msg h
    simp [moveHandler, h]
  · intro G turnOf ruleMove g msg ht
    have hcm : canMove (turnOf g) Role.black = false := by rw [ht]; rfl
    simp [moveHandler, hcm]
  · intro G turnOf ruleMove g role msg h
    cases hcm : canMove (turnOf g) role with
    | false => simp [moveHandler, hcm]
    | true => simp [moveHandler, hcm, h]

/-- A trivial Rule Engine over a one-point board that always has white to
move, used only to instantiate the move handler concretely. -/
def unitTurnW : Unit → Turn := fun _ => Turn.w

def unitRuleAccept : Unit → MoveArg → Option Unit := fun _ _ => some ()

def unitRuleRefuse : Unit → MoveArg → Option Unit := fun _ _ => none

def msgE2E4 : MoveMsg := { moveFrom := "e2", moveTo := "e4", promotion := none }

/-- Witness for C6: a white move accepted by the Rule Engine broadcasts,
a spectator and the black seat are rejected with white to move, and a Rule
Engine refusal is rejected. -/
theorem C6_witness :
    (Role.white ≠ Role.spectator ∧ canMove (unitTurnW ()) Role.white = true ∧
      unitRuleAccept () { moveFrom := msgE2E4.moveFrom, moveTo := msgE2E4.moveTo,
                          promotion := jsOrDefault msgE2E4.promotion "q" } = some ()) ∧
    moveHandler unitTurnW unitRuleAccept () Role.spectator msgE2E4 =
      ((), MoveResp.illegalToSender) ∧
    moveHandler unitTurnW unitRuleAccept () Role.black msgE2E4 =
      ((), MoveResp.illegalToSender) ∧
    moveHandler unitTurnW unitRuleRefuse () Role.white msgE2E4 =
      ((), MoveResp.illegalToSender) :=
  ⟨C6_theorem.1 Unit unitTurnW unitRuleAccept () Role.white msgE2E4 () rfl,
   C6_theorem.2.1 Unit unitTurnW unitRuleAccept () Role.spectator msgE2E4 rfl,
   C6_theorem.2.2.1 Unit unitTurnW unitRuleAccept () msgE2E4 rfl,
   C6_theorem.2.2.2 Unit unitTurnW unitRuleRefuse () Role.white msgE2E4 rfl⟩

/-- Claim C7: four distinct connections queueing in the order a, b, c, d
with everyone alive produce exactly the pairs (a, b) then (c, d), and the
pair (a, c) is never produced. -/
theorem C7_theorem :
    ∀ a b c d : Nat, a ≠ b → a ≠ c → a ≠ d → b ≠ c → b ≠ d → c ≠ d →
      (runJoins (fun _ => true) [] [a, b, c, d]).2 = [(a, b), (c, d)] ∧
      (a, c) ∉ (runJoins (fun _ => true) [] [a, b, c, d]).2 := by
  intro a b c d hab hac had hbc hbd hcd
  have hba : b ≠ a := hab.symm
  have hdc : d ≠ c := hcd.symm
  have hrun : (runJoins (fun _ => true) [] [a, b, c, d]).2 = [(a, b), (c, d)] := by
    simp [runJoins, queueJoin, tryMatchmake, hba, hdc]
  refine ⟨hrun, ?_⟩
  rw [hrun]
  simp [Prod.ext_iff, hac, hbc.symm]

/-- Witness for C7: the concrete connections 0, 1, 2, 3 pair as (0, 1) and
(2, 3), and (0, 2) is not among the produced pairs. -/
theorem C7_witness :
    (runJoins (fun _ => true) [] [0, 1, 2, 3]).2 = [(0, 1), (2, 3)] ∧
    (0, 2) ∉ (runJoins (fun _ => true) [] [0, 1, 2, 3]).2 :=
  C7_theorem 0 1 2 3 (by decide) (by decide) (by decide) (by decide) (by decide)
    (by decide)

/-- Claim C8, as stated, is false at a concrete trace: after an evaluation
for ply 2 is recorded, the restart handler writes lastEvalPly back to 0,
assigning the field a value smaller than its current one. -/
theorem C8_counterexample :
    ((updateEvalResolve { lastEval := 0, lastEvalPly := 0 } 2 1).1).lastEvalPly = 2 ∧
    (restartRoom ((updateEvalResolve { lastEval := 0, lastEvalPly := 0 } 2 1).1)).lastEvalPly = 0 ∧
    ¬ (((updateEvalResolve { lastEval := 0, lastEvalPly := 0 } 2 1).1).lastEvalPly ≤
        (restartRoom ((updateEvalResolve { lastEval := 0, lastEvalPly := 0 } 2 1).1)).lastEvalPly) := by
  refine ⟨?_, ?_, ?_⟩ <;> decide

/-- Claim C8 (amended): lastEvalPly never decreases under evaluation
completions — a stale result leaves it unchanged and a fresh one raises it —
while the restart handler resets lastEval and lastEvalPly to zero, which is
a decrease whenever the game has progressed; joins and leaves do not touch
either field. -/
theorem C8_theorem :
    (∀ (room : RoomEval) (ply : Int) (score : ℚ),
        room.lastEvalPly ≤ ((updateEvalResolve room ply score).1).lastEvalPly) ∧
    (∀ room : RoomEval, restartRoom room = { lastEval := 0, lastEvalPly := 0 }) := by
  constructor
  · intro room ply score
    by_cases h : ply < room.lastEvalPly
    · simp [updateEvalResolve, h]
    · simp only [updateEvalResolve, if_neg h]
      exact le_of_not_lt h
  · intro room
    rfl

/-- Claim C9: a second cancelQueue and a second leave for the same
connection, immediately after a first with nothing in between, leave the
waiting slot, the room registry and all room state exactly as after the
first call. -/
theorem C9_theorem :
    (∀ (waiting : Option Nat) (ws : Nat),
        clearWaitingIf (clearWaitingIf waiting ws) ws = clearWaitingIf waiting ws) ∧
    (∀ (w : World) (ws : Nat), leaveRoom (leaveRoom w ws) ws = leaveRoom w ws) := by
  constructor
  · intro waiting ws
    match waiting with
    | none => rfl
    | some x =>
        by_cases h : x = ws
        · simp [clearWaitingIf, h]
        · simp [clearWaitingIf, h]
  · intro w ws
    have hid : ∀ w2 : World, w2.wsRoom = none → leaveRoom w2 ws = w2 := by
      intro w2 h2
      simp [leaveRoom, h2]
    cases hw : w.wsRoom with
    | none => rw [hid w hw, hid w hw]
    | some code =>
        have h2 : (leaveRoom w ws).wsRoom = none := by
          simp only [leaveRoom, hw]
          cases hlk : lookupRoom w.rooms code <;> simp
        exact hid _ h2

/-- Claim C10: a move message without a promotion field is handled exactly
like one explicitly requesting a queen — the handler hands promotion "q" to
the Rule Engine instead of rejecting the message. -/
theorem C10_theorem :
    (∀ (G : Type) (turnOf : G → Turn) (ruleMove : G → MoveArg → Option G)
        (g : G) (role : Role) (f t : String),
        moveHandler turnOf ruleMove g role { moveFrom := f, moveTo := t, promotion := none } =
          moveHandler turnOf ruleMove g role
            { moveFrom := f, moveTo := t, promotion := some "q" }) ∧
    jsOrDefault none "q" = "q" := by
  constructor
  · intro G turnOf ruleMove g role f t
    simp [moveHandler, jsOrDefault]
  · rfl

end ChessServer
